import Mathlib

/-!
A shallow embedding of `pkg/leaderelection/leaderelection.go`.

The Go file is a facade over the `k8s.io/client-go/tools/leaderelection`
engine: it builds an identity string and a resource lock in `New`, exposes
read-only accessors (`Name`, `Namespace`, `ID`, `IsLeader`), and in `Run`
hands the engine a fixed `LeaderElectionConfig` whose callbacks update an
atomic `isLeader` flag and dispatch the caller's `startWork` / `stopWork`
procedures on fresh goroutines.

External effects are made explicit parameters:
  * `os.Hostname()` becomes an `Except String String` argument;
  * `uuid.NewUUID()` becomes a `String` argument;
  * the outcome of `resourcelock.New` (which can fail, e.g. for an invalid
    lock type) becomes an `Option String` argument holding the error, if
    any; on success the lock value is built exactly as client-go stores the
    `ResourceLockConfig` identity;
  * `go f()` is modelled by returning the dispatched procedure in a
    `spawned` list instead of executing it; the work type `W` is an opaque
    type parameter, so a handler result cannot depend on running the work;
  * the logger becomes a list of emitted `LogEvent`s.

Go machine integers: `isLeader` is an `int64`, modelled as `Int`; the code
only ever stores the literals `0` and `1`, far from overflow.
-/

namespace LeaderElection

/-- Events emitted to the injected logger by the three callbacks
(lines 109, 117, 127 of the source). -/
inductive LogEvent where
  | startedLeading (id : String)
  | stoppedLeading (id : String)
  | newLeaderObserved (currentId leader : String)
deriving DecidableEq, Repr

/-- `resourcelock.ResourceLockConfig{Identity: id}`. -/
structure ResourceLockConfig where
  identity : String
deriving DecidableEq, Repr

/-- `resourcelock.ConfigMapsResourceLock`, the lock type passed at line 57. -/
def ConfigMapsResourceLock : String := "configmaps"

/-- The lock handle returned by `resourcelock.New`: client-go stores the
lock type, namespace, name and the config whose `Identity` field the
`Identity()` method returns. -/
structure ResourceLock where
  lockType : String
  ns : String
  name : String
  config : ResourceLockConfig
deriving DecidableEq, Repr

/-- `lock.Identity()`: returns the identity fixed at lock construction. -/
def ResourceLock.Identity (l : ResourceLock) : String :=
  l.config.identity

/-- The `leaderElection` struct (lines 36-46). `K` is the opaque type of
the Kubernetes client handle and `W` the opaque type of the caller's work
procedures (`func()` values, held but never inspected). The Go struct
field `log` is a logger handle; log output is modelled as handler results
instead, so the field is dropped here. -/
structure leaderElection (K W : Type) where
  name : String
  ns : String
  id : String
  startWork : Option W
  stopWork : Option W
  kubeClient : K
  lock : ResourceLock
  isLeader : Int
deriving Repr

/-- `New` (lines 48-80). `hostname` is the outcome of `os.Hostname()`,
`newUUID` the value of `uuid.NewUUID()`, and `rlNewErr` the error, if any,
of the `resourcelock.New` call. Error wrapping follows `pkg/errors`:
`Wrap(err, msg)` yields the message `msg ++ ": " ++ err`. Note that the
`Wrapf` format at line 68 interpolates `namespace` then `name`, in that
order, and that the struct literal at lines 71-79 leaves the `id` field at
its zero value `""` and `isLeader` at its zero value `0`. -/
def New (K W : Type) (name ns : String) (kubeClient : K)
    (startWork stopWork : Option W)
    (hostname : Except String String) (newUUID : String)
    (rlNewErr : Option String) :
    Except String (leaderElection K W) :=
  match hostname with
  | .error err => .error ("error fetching hostname: " ++ err)
  | .ok hostId =>
    let id := hostId ++ "_" ++ newUUID
    match rlNewErr with
    | some err =>
        .error ("error creating lock for leader election " ++ ns ++
          " in namespace " ++ name ++ ": " ++ err)
    | none =>
        .ok { name := name
              ns := ns
              id := ""
              startWork := startWork
              stopWork := stopWork
              kubeClient := kubeClient
              lock := { lockType := ConfigMapsResourceLock
                        ns := ns
                        name := name
                        config := { identity := id } }
              isLeader := 0 }

/-- `Name()` (lines 82-84). -/
def Name (le : leaderElection K W) : String :=
  le.name

/-- `Namespace()` (lines 86-88). -/
def Namespace (le : leaderElection K W) : String :=
  le.ns

/-- `IsLeader()` (lines 90-92): `atomic.LoadInt64(&le.isLeader) == 1`. -/
def IsLeader (le : leaderElection K W) : Bool :=
  le.isLeader == 1

/-- `ID()` (lines 94-96): delegates to the lock's identity. -/
def ID (le : leaderElection K W) : String :=
  le.lock.Identity

/-- The outcome of running one callback: the updated receiver state, the
log events emitted, and the procedures dispatched on fresh goroutines
(`go f()`), in order. The handler returns without awaiting `spawned`. -/
structure HandlerResult (K W : Type) where
  state : leaderElection K W
  events : List LogEvent
  spawned : List W
deriving Repr

/-- The `OnStartedLeading` callback (lines 107-113): store `1` into the
atomic flag, log `started leading` with the lock identity, then dispatch
`startWork` on a goroutine when it is non-nil. -/
def OnStartedLeading (le : leaderElection K W) : HandlerResult K W :=
  { state := { le with isLeader := 1 }
    events := [.startedLeading le.lock.Identity]
    spawned :=
      match le.startWork with
      | some w => [w]
      | none => [] }

/-- The `OnStoppedLeading` callback (lines 115-121): store `0` into the
atomic flag, log `stopped leading`, then dispatch `stopWork` on a
goroutine when it is non-nil. -/
def OnStoppedLeading (le : leaderElection K W) : HandlerResult K W :=
  { state := { le with isLeader := 0 }
    events := [.stoppedLeading le.lock.Identity]
    spawned :=
      match le.stopWork with
      | some w => [w]
      | none => [] }

/-- The `OnNewLeader` callback (lines 123-128): return early with no event
when the observed identity is this instance's own; otherwise log the
`another instance has been elected as leader` event. The receiver is never
mutated. -/
def OnNewLeader (le : leaderElection K W) (identity : String) :
    HandlerResult K W :=
  if identity = le.lock.Identity then
    { state := le, events := [], spawned := [] }
  else
    { state := le
      events := [.newLeaderObserved le.lock.Identity identity]
      spawned := [] }

/-- `time.Second` in nanoseconds: Go duration literals such as
`15 * time.Second` are products with this constant. -/
def timeSecond : Nat := 1000000000

/-- The engine configuration fields fixed by `Run` (lines 100-105):
the lock, `ReleaseOnCancel`, and the three durations in nanoseconds.
The callbacks of the Go config are modelled by the three handler
functions above. -/
structure LeaderElectionConfig where
  lock : ResourceLock
  releaseOnCancel : Bool
  leaseDuration : Nat
  renewDeadline : Nat
  retryPeriod : Nat
deriving DecidableEq, Repr

/-- The configuration `Run` passes to `leaderelection.RunOrDie`
(lines 100-105). -/
def RunConfig (le : leaderElection K W) : LeaderElectionConfig :=
  { lock := le.lock
    releaseOnCancel := true
    leaseDuration := 15 * timeSecond
    renewDeadline := 10 * timeSecond
    retryPeriod := 2 * timeSecond }

/-- One facade-mutating callback invocation, as fired by the engine. The
accessors `Name`, `Namespace`, `ID` and `IsLeader` are the only other
methods, and they are pure reads. -/
inductive FacadeOp (W : Type) where
  | startedLeading
  | stoppedLeading
  | newLeader (identity : String)

/-- The state component of running one callback. -/
def applyOp (le : leaderElection K W) : FacadeOp W → leaderElection K W
  | .startedLeading => (OnStartedLeading le).state
  | .stoppedLeading => (OnStoppedLeading le).state
  | .newLeader i => (OnNewLeader le i).state

/-- The state after a sequence of callback invocations. -/
def applyOps (le : leaderElection K W) : List (FacadeOp W) → leaderElection K W
  | [] => le
  | o :: os => applyOps (applyOp le o) os

/-- A Go method call with a read-only body, in state-passing form: the
receiver comes back unchanged next to the returned value. -/
def NameCall (le : leaderElection K W) : leaderElection K W × String :=
  (le, Name le)

/-- `Namespace()` in state-passing form. -/
def NamespaceCall (le : leaderElection K W) : leaderElection K W × String :=
  (le, Namespace le)

/-- `ID()` in state-passing form. -/
def IDCall (le : leaderElection K W) : leaderElection K W × String :=
  (le, ID le)

/-- `IsLeader()` in state-passing form. -/
def IsLeaderCall (le : leaderElection K W) : leaderElection K W × Bool :=
  (le, IsLeader le)

/-!
## The election engine

Modelled from the spec: the renewal state machine itself lives in
`k8s.io/client-go/tools/leaderelection` (`RunOrDie`, called at line 100),
not in this repository, so it is embedded from §4.1 of the specification
as a transition system over an in-memory lock record supporting atomic
compare-and-swap. Each constructor is one atomic lock-service interaction
or one unit of time:

  * `acquire`: §4.1 step 2 — a conditional create/update that succeeds
    only when the record is absent or expired; the winner becomes leader.
  * `renew`: §4.1 step 3 — the holder refreshes `renewTime`.
  * `concede`: §4.1 step 3 — renewal failed past the deadline; the
    instance stops considering itself leader (the record expires
    passively).
  * `release`: §4.1 step 6 — `releaseOnCancel`: the cancelled holder
    clears the record and stops leading.
  * `tick`: time advances. Its guard encodes the deadline discipline of
    §4.1 step 3: a holder that cannot renew "must succeed before
    `renewDeadline` elapses; repeated failures across that deadline ⇒
    concede", so the clock cannot pass an instance's renew deadline while
    it still calls itself leader.

Instances are indexed by their identity string (identities are unique per
instance, §3). `leader i` is instance `i`'s leadership flag. -/

/-- The in-memory lock record: current holder and last renewal time
(seconds). -/
structure LockRecord where
  holder : String
  renewTime : Nat
deriving DecidableEq, Repr

/-- The global state of one election: a clock, the shared lock record (or
none when absent/cleared), and each instance's leadership flag. -/
structure EngineState where
  clock : Nat
  lock : Option LockRecord
  leader : String → Bool

/-- The record is absent or its lease has expired (§4.1 step 2). -/
def lockFreeOrExpired (lease : Nat) (s : EngineState) : Prop :=
  s.lock = none ∨ ∃ r, s.lock = some r ∧ r.renewTime + lease ≤ s.clock

/-- One atomic step of the election, for lease duration `lease` and renew
deadline `renewD` (both in seconds). -/
inductive EngineStep (lease renewD : Nat) : EngineState → EngineState → Prop where
  | acquire (s : EngineState) (i : String)
      (hfree : lockFreeOrExpired lease s) :
      EngineStep lease renewD s
        { clock := s.clock
          lock := some { holder := i, renewTime := s.clock }
          leader := Function.update s.leader i true }
  | renew (s : EngineState) (i : String) (t : Nat)
      (hlock : s.lock = some { holder := i, renewTime := t })
      (hl : s.leader i = true) :
      EngineStep lease renewD s
        { clock := s.clock
          lock := some { holder := i, renewTime := s.clock }
          leader := s.leader }
  | concede (s : EngineState) (i : String) :
      EngineStep lease renewD s
        { clock := s.clock
          lock := s.lock
          leader := Function.update s.leader i false }
  | release (s : EngineState) (i : String) (r : LockRecord)
      (hlock : s.lock = some r) (hh : r.holder = i) (hl : s.leader i = true) :
      EngineStep lease renewD s
        { clock := s.clock
          lock := none
          leader := Function.update s.leader i false }
  | tick (s : EngineState)
      (hdue : ∀ i, s.leader i = true →
        ∃ r, s.lock = some r ∧ r.holder = i ∧ s.clock + 1 ≤ r.renewTime + renewD) :
      EngineStep lease renewD s
        { clock := s.clock + 1
          lock := s.lock
          leader := s.leader }

/-- Initial state: no record, everyone standby. -/
def engineInit : EngineState :=
  { clock := 0, lock := none, leader := fun _ => false }

/-- States reachable from `engineInit` by engine steps. -/
def EngineReachable (lease renewD : Nat) (s : EngineState) : Prop :=
  Relation.ReflTransGen (EngineStep lease renewD) engineInit s

/-- The inductive invariant: every instance that calls itself leader is
the current holder of the record and its renew deadline has not passed. -/
def EngineInv (renewD : Nat) (s : EngineState) : Prop :=
  ∀ i, s.leader i = true →
    ∃ r, s.lock = some r ∧ r.holder = i ∧ s.clock ≤ r.renewTime + renewD

/-- A concrete instance as returned by a successful `New` with hostname
`host`, uuid `u`, name `n`, namespace `ns` and no work callbacks. -/
def leWitness : leaderElection Unit Unit :=
  { name := "n"
    ns := "ns"
    id := ""
    startWork := none
    stopWork := none
    kubeClient := ()
    lock := { lockType := ConfigMapsResourceLock
              ns := "ns"
              name := "n"
              config := { identity := "host" ++ "_" ++ "u" } }
    isLeader := 0 }

/-- `leWitness` with both work callbacks supplied. -/
def leWitnessW : leaderElection Unit Unit :=
  { leWitness with startWork := some (), stopWork := some () }

/-- A concrete engine state: instance `A` has just acquired the fresh
lock at time `0`. -/
def engineS1 : EngineState :=
  { clock := 0
    lock := some { holder := "A", renewTime := 0 }
    leader := Function.update engineInit.leader "A" true }

/-! ## Theorems -/

/-- The invariant holds initially: nobody is leader. -/
theorem engineInv_init (renewD : Nat) : EngineInv renewD engineInit := by
  intro i hi
  simp [engineInit] at hi

/-- The invariant is preserved by every engine step, provided the renew
deadline is shorter than the lease duration. -/
theorem engineInv_step {lease renewD : Nat} (hlt : renewD < lease)
    {s t : EngineState} (hstep : EngineStep lease renewD s t)
    (hinv : EngineInv renewD s) : EngineInv renewD t := by
  cases hstep with
  | acquire i hfree =>
    intro j hj
    dsimp only at hj ⊢
    by_cases hji : j = i
    · subst hji
      exact ⟨_, rfl, rfl, Nat.le_add_right _ _⟩
    · rw [Function.update_noteq hji] at hj
      obtain ⟨r, hr, _, hcl⟩ := hinv j hj
      rcases hfree with h0 | ⟨r2, hr2, hexp⟩
      · rw [h0] at hr
        exact absurd hr (by simp)
      · rw [hr2] at hr
        injection hr with hr
        subst hr
        omega
  | renew i tm hlock hl =>
    intro j hj
    dsimp only at hj ⊢
    obtain ⟨r, hr, hh, _⟩ := hinv j hj
    rw [hlock] at hr
    injection hr with hr
    subst hr
    exact ⟨_, rfl, hh, Nat.le_add_right _ _⟩
  | concede i =>
    intro j hj
    dsimp only at hj ⊢
    by_cases hji : j = i
    · subst hji
      rw [Function.update_same] at hj
      exact absurd hj (by simp)
    · rw [Function.update_noteq hji] at hj
      exact hinv j hj
  | release i r hlock hh hl =>
    intro j hj
    dsimp only at hj ⊢
    by_cases hji : j = i
    · subst hji
      rw [Function.update_same] at hj
      exact absurd hj (by simp)
    · rw [Function.update_noteq hji] at hj
      obtain ⟨r2, hr2, hh2, _⟩ := hinv j hj
      rw [hlock] at hr2
      injection hr2 with hr2
      subst hr2
      exact absurd (hh.symm.trans hh2) (fun h => hji h.symm)
  | tick hdue =>
    intro j hj
    dsimp only at hj ⊢
    obtain ⟨r, hr, hh, hcl⟩ := hdue j hj
    exact ⟨r, hr, hh, hcl⟩

/-- Every reachable engine state satisfies the invariant. -/
theorem engineInv_reachable {lease renewD : Nat} (hlt : renewD < lease)
    {s : EngineState} (hs : EngineReachable lease renewD s) :
    EngineInv renewD s := by
  induction hs with
  | refl => exact engineInv_init renewD
  | tail _ hstep ih => exact engineInv_step hlt hstep ih

/-- C1: for every set of instances running the election against a lock
service enforcing atomic compare-and-swap updates (each `EngineStep` is
one atomic lock-service interaction), and for every execution (every
reachable state, under every sequence of responses), at most one
instance's leadership state is Leader at any instant. The hypothesis
`renewD < lease` is the configured ordering `renewDeadline <
leaseDuration` (10s < 15s in `Run`). -/
theorem engine_at_most_one_leader (lease renewD : Nat) (hlt : renewD < lease)
    (s : EngineState) (hs : EngineReachable lease renewD s)
    (a b : String) (ha : s.leader a = true) (hb : s.leader b = true) :
    a = b := by
  have hinv := engineInv_reachable hlt hs
  obtain ⟨r, hr, hha, _⟩ := hinv a ha
  obtain ⟨r2, hr2, hhb, _⟩ := hinv b hb
  rw [hr] at hr2
  injection hr2 with hr2
  subst hr2
  rw [← hha, hhb]

/-- `engineS1` is reachable: `A` acquires the absent lock from the
initial state. -/
theorem engineS1_reachable : EngineReachable 15 10 engineS1 := by
  have hfree : lockFreeOrExpired 15 engineInit := Or.inl rfl
  exact Relation.ReflTransGen.single (EngineStep.acquire engineInit "A" hfree)

/-- C1, instantiated: the concrete state `engineS1`, reached with the
`Run` durations 15s/10s, has `A` as its only leader. -/
theorem engine_at_most_one_leader_holds :
    (10 : Nat) < 15 ∧ engineS1.leader "A" = true ∧ "A" = "A" :=
  ⟨by decide,
   by simp [engineS1],
   engine_at_most_one_leader 15 10 (by decide) engineS1 engineS1_reachable
     "A" "A" (by simp [engineS1]) (by simp [engineS1])⟩

/-- A single callback invocation never touches the `name`, `ns` and
`lock` fields. -/
theorem applyOp_frame (le : leaderElection K W) (o : FacadeOp W) :
    (applyOp le o).name = le.name ∧ (applyOp le o).ns = le.ns ∧
      (applyOp le o).lock = le.lock := by
  cases o with
  | startedLeading => exact ⟨rfl, rfl, rfl⟩
  | stoppedLeading => exact ⟨rfl, rfl, rfl⟩
  | newLeader i =>
    dsimp only [applyOp, OnNewLeader]
    split <;> exact ⟨rfl, rfl, rfl⟩

/-- Callback sequences never touch the `name`, `ns` and `lock` fields. -/
theorem applyOps_frame (le : leaderElection K W) (ops : List (FacadeOp W)) :
    (applyOps le ops).name = le.name ∧ (applyOps le ops).ns = le.ns ∧
      (applyOps le ops).lock = le.lock := by
  induction ops generalizing le with
  | nil => exact ⟨rfl, rfl, rfl⟩
  | cons o os ih =>
    obtain ⟨h1, h2, h3⟩ := ih (applyOp le o)
    obtain ⟨g1, g2, g3⟩ := applyOp_frame le o
    exact ⟨h1.trans g1, h2.trans g2, h3.trans g3⟩

/-- The `OnNewLeader` callback never writes the leadership flag. -/
theorem onNewLeader_isLeader (le : leaderElection K W) (i : String) :
    (OnNewLeader le i).state.isLeader = le.isLeader := by
  dsimp only [OnNewLeader]
  split <;> rfl

/-- After any callback sequence the flag is `0` or `1`, provided it was. -/
theorem applyOps_isLeader_zero_or_one (le : leaderElection K W)
    (h : le.isLeader = 0 ∨ le.isLeader = 1) (ops : List (FacadeOp W)) :
    (applyOps le ops).isLeader = 0 ∨ (applyOps le ops).isLeader = 1 := by
  induction ops generalizing le with
  | nil => exact h
  | cons o os ih =>
    refine ih (applyOp le o) ?_
    cases o with
    | startedLeading => exact Or.inr rfl
    | stoppedLeading => exact Or.inl rfl
    | newLeader i => rw [applyOp, onNewLeader_isLeader]; exact h

/-- The flag stays `0` across any callback sequence that contains no
`OnStartedLeading` invocation. -/
theorem applyOps_isLeader_stays_zero (le : leaderElection K W)
    (h : le.isLeader = 0) (ops : List (FacadeOp W))
    (hops : ∀ o ∈ ops, o ≠ FacadeOp.startedLeading) :
    (applyOps le ops).isLeader = 0 := by
  induction ops generalizing le with
  | nil => exact h
  | cons o os ih =>
    refine ih (applyOp le o) ?_ (fun o2 ho2 => hops o2 (List.mem_cons_of_mem o ho2))
    cases o with
    | startedLeading => exact absurd rfl (hops _ (List.mem_cons_self _ _))
    | stoppedLeading => rfl
    | newLeader i => rw [applyOp, onNewLeader_isLeader]; exact h

/-- C2: immediately after the `OnStartedLeading` handler completes,
`IsLeader()` returns `true`; immediately after `OnStoppedLeading`
completes, it returns `false`. The flag is a single atomic cell (an
atomic store in the handler, an atomic load in `IsLeader`), so the
handler's completed state is exactly what any concurrent reader
observes. -/
theorem isLeader_tracks_callbacks (K W : Type) (le : leaderElection K W) :
    IsLeader (OnStartedLeading le).state = true ∧
      IsLeader (OnStoppedLeading le).state = false :=
  ⟨rfl, rfl⟩

/-- C3: `New` returns an instance exactly when resolving the hostname
succeeds and constructing the resource lock succeeds; every error it
returns wraps one of those two failures, so in particular no
invalid-duration configuration error can arise from `New` (it inspects no
durations at all). -/
theorem new_error_characterization (K W : Type) (name ns : String)
    (kubeClient : K) (startWork stopWork : Option W)
    (hostname : Except String String) (newUUID : String)
    (rlNewErr : Option String) :
    ((∃ le, New K W name ns kubeClient startWork stopWork hostname newUUID
        rlNewErr = .ok le) ↔ (∃ h, hostname = .ok h) ∧ rlNewErr = none) ∧
    (∀ e, New K W name ns kubeClient startWork stopWork hostname newUUID
        rlNewErr = .error e →
      (∃ msg, hostname = .error msg ∧
        e = "error fetching hostname: " ++ msg) ∨
      (∃ msg, rlNewErr = some msg ∧
        e = "error creating lock for leader election " ++ ns ++
          " in namespace " ++ name ++ ": " ++ msg)) := by
  cases hostname with
  | error msg => simp [New]
  | ok hostId => cases rlNewErr <;> simp [New]

/-- C3, instantiated: a failing hostname lookup surfaces as the wrapped
constructor error. -/
theorem new_error_characterization_holds :
    (∃ msg, (Except.error "no host" : Except String String) = .error msg ∧
        "error fetching hostname: no host" =
          "error fetching hostname: " ++ msg) ∨
    (∃ msg, (none : Option String) = some msg ∧
        "error fetching hostname: no host" =
          "error creating lock for leader election " ++ "ns" ++
            " in namespace " ++ "n" ++ ": " ++ msg) :=
  (new_error_characterization Unit Unit "n" "ns" () none none
    (.error "no host") "u" none).2 "error fetching hostname: no host" rfl

/-- C4: whenever `New` succeeds with hostname `hostId` and generated
suffix `newUUID`, the instance's identity is `hostId ++ "_" ++ newUUID`,
and no later callback ever changes it. -/
theorem identity_from_host_and_uuid (K W : Type) (name ns : String)
    (kubeClient : K) (startWork stopWork : Option W)
    (hostId newUUID : String) (rlNewErr : Option String)
    (le : leaderElection K W)
    (h : New K W name ns kubeClient startWork stopWork (.ok hostId) newUUID
      rlNewErr = .ok le) :
    ID le = hostId ++ "_" ++ newUUID ∧
      ∀ ops : List (FacadeOp W),
        ID (applyOps le ops) = hostId ++ "_" ++ newUUID := by
  cases rlNewErr with
  | some msg => exact absurd h (by simp [New])
  | none =>
    rw [New] at h
    injection h with h
    subst h
    refine ⟨rfl, fun ops => ?_⟩
    rw [ID, ResourceLock.Identity, (applyOps_frame _ ops).2.2]

/-- C4, instantiated at hostname `host` and uuid `u`. -/
theorem identity_from_host_and_uuid_holds :
    ID leWitness = "host" ++ "_" ++ "u" :=
  (identity_from_host_and_uuid Unit Unit "n" "ns" () none none
    "host" "u" none leWitness rfl).1

/-- C5: `Run` always hands the engine `leaseDuration = 15s`,
`renewDeadline = 10s`, `retryPeriod = 2s` and `releaseOnCancel = true`,
and these fixed durations satisfy
`retryPeriod < renewDeadline < leaseDuration`. -/
theorem run_config_fixed (K W : Type) (le : leaderElection K W) :
    RunConfig le =
      { lock := le.lock
        releaseOnCancel := true
        leaseDuration := 15 * timeSecond
        renewDeadline := 10 * timeSecond
        retryPeriod := 2 * timeSecond } ∧
    (RunConfig le).retryPeriod < (RunConfig le).renewDeadline ∧
    (RunConfig le).renewDeadline < (RunConfig le).leaseDuration :=
  ⟨rfl, by norm_num [RunConfig, timeSecond], by norm_num [RunConfig, timeSecond]⟩

/-- C6: `OnNewLeader` returns without emitting the new-leader-observed
event when the observed identity is this instance's own; for any other
identity it emits exactly that event. -/
theorem onNewLeader_skips_self (K W : Type) (le : leaderElection K W)
    (identity : String) :
    (identity = le.lock.Identity →
      OnNewLeader le identity = { state := le, events := [], spawned := [] }) ∧
    (identity ≠ le.lock.Identity →
      OnNewLeader le identity =
        { state := le
          events := [.newLeaderObserved le.lock.Identity identity]
          spawned := [] }) := by
  constructor <;> intro h <;> simp [OnNewLeader, h]

/-- C6, instantiated: observing the own identity emits nothing, and
observing a different identity emits the event. -/
theorem onNewLeader_skips_self_holds :
    OnNewLeader leWitness ("host" ++ "_" ++ "u") =
        { state := leWitness, events := [], spawned := [] } ∧
      OnNewLeader leWitness "other" =
        { state := leWitness
          events := [.newLeaderObserved leWitness.lock.Identity "other"]
          spawned := [] } :=
  ⟨(onNewLeader_skips_self Unit Unit leWitness ("host" ++ "_" ++ "u")).1 rfl,
   (onNewLeader_skips_self Unit Unit leWitness "other").2 (by decide)⟩

/-- C7: with a nil `startWork` (resp. `stopWork`), the corresponding
handler still stores the flag and logs, dispatches nothing, and is a
total function — no nil-procedure invocation is reachable. -/
theorem nil_work_skipped (K W : Type) (le : leaderElection K W) :
    (le.startWork = none →
      OnStartedLeading le =
        { state := { le with isLeader := 1 }
          events := [.startedLeading le.lock.Identity]
          spawned := [] }) ∧
    (le.stopWork = none →
      OnStoppedLeading le =
        { state := { le with isLeader := 0 }
          events := [.stoppedLeading le.lock.Identity]
          spawned := [] }) := by
  constructor <;> intro h <;> simp [OnStartedLeading, OnStoppedLeading, h]

/-- C7, instantiated on an instance with neither callback supplied. -/
theorem nil_work_skipped_holds :
    OnStartedLeading leWitness =
        { state := { leWitness with isLeader := 1 }
          events := [.startedLeading leWitness.lock.Identity]
          spawned := [] } ∧
      OnStoppedLeading leWitness =
        { state := { leWitness with isLeader := 0 }
          events := [.stoppedLeading leWitness.lock.Identity]
          spawned := [] } :=
  ⟨(nil_work_skipped Unit Unit leWitness).1 rfl,
   (nil_work_skipped Unit Unit leWitness).2 rfl⟩

/-- C8: when a work procedure is supplied, the handler returns it in its
`spawned` list (a `go` dispatch onto a separate execution context) while
the state update and log events it returns are fully determined without
running the procedure — the work type `W` is opaque here, so the handler
cannot await or evaluate `w`; the renewal loop continues as soon as the
handler returns. -/
theorem work_dispatched_async (K W : Type) (le : leaderElection K W) (w : W) :
    (le.startWork = some w →
      OnStartedLeading le =
        { state := { le with isLeader := 1 }
          events := [.startedLeading le.lock.Identity]
          spawned := [w] }) ∧
    (le.stopWork = some w →
      OnStoppedLeading le =
        { state := { le with isLeader := 0 }
          events := [.stoppedLeading le.lock.Identity]
          spawned := [w] }) := by
  constructor <;> intro h <;> simp [OnStartedLeading, OnStoppedLeading, h]

/-- C8, instantiated on an instance with both callbacks supplied. -/
theorem work_dispatched_async_holds :
    OnStartedLeading leWitnessW =
        { state := { leWitnessW with isLeader := 1 }
          events := [.startedLeading leWitnessW.lock.Identity]
          spawned := [()] } ∧
      OnStoppedLeading leWitnessW =
        { state := { leWitnessW with isLeader := 0 }
          events := [.stoppedLeading leWitnessW.lock.Identity]
          spawned := [()] } :=
  ⟨(work_dispatched_async Unit Unit leWitnessW ()).1 rfl,
   (work_dispatched_async Unit Unit leWitnessW ()).2 rfl⟩

/-- C9: every instance returned by `New` starts with the flag at `0`
(Standby), so `IsLeader()` is `false` from construction and stays `false`
across any callback sequence with no `OnStartedLeading` in it; across
arbitrary callback sequences the flag only ever holds `0` or `1`; and of
the three callbacks only `OnStartedLeading` and `OnStoppedLeading` write
it (`OnNewLeader` leaves it untouched; the accessors are pure reads). -/
theorem flag_starts_standby (K W : Type) (name ns : String) (kubeClient : K)
    (startWork stopWork : Option W) (hostname : Except String String)
    (newUUID : String) (rlNewErr : Option String) (le : leaderElection K W)
    (h : New K W name ns kubeClient startWork stopWork hostname newUUID
      rlNewErr = .ok le) :
    le.isLeader = 0 ∧ IsLeader le = false ∧
    (∀ ops : List (FacadeOp W),
      (∀ o ∈ ops, o ≠ FacadeOp.startedLeading) →
        IsLeader (applyOps le ops) = false) ∧
    (∀ ops : List (FacadeOp W),
      (applyOps le ops).isLeader = 0 ∨ (applyOps le ops).isLeader = 1) ∧
    (∀ le2 : leaderElection K W, ∀ i,
      (OnNewLeader le2 i).state.isLeader = le2.isLeader) ∧
    (∀ le2 : leaderElection K W,
      (OnStartedLeading le2).state.isLeader = 1 ∧
        (OnStoppedLeading le2).state.isLeader = 0) := by
  have h0 : le.isLeader = 0 := by
    cases hostname with
    | error msg => exact absurd h (by simp [New])
    | ok hostId =>
      cases rlNewErr with
      | some msg => exact absurd h (by simp [New])
      | none =>
        rw [New] at h
        injection h with h
        subst h
        rfl
  refine ⟨h0, by rw [IsLeader, h0]; rfl, fun ops hops => ?_, ?_, ?_, ?_⟩
  · rw [IsLeader, applyOps_isLeader_stays_zero le h0 ops hops]
    rfl
  · exact applyOps_isLeader_zero_or_one le (Or.inl h0)
  · exact fun le2 i => onNewLeader_isLeader le2 i
  · exact fun le2 => ⟨rfl, rfl⟩

/-- C9, instantiated: a freshly constructed instance is not leader. -/
theorem flag_starts_standby_holds : IsLeader leWitness = false :=
  (flag_starts_standby Unit Unit "n" "ns" () none none (.ok "host") "u"
    none leWitness rfl).2.1

/-- C10: the four accessors are read-only method calls — in state-passing
form each returns its receiver unchanged next to the value — and on any
instance built by `New`, `Name`, `Namespace` and `ID` return the
construction-time values (the descriptor fields verbatim and the identity
fixed at lock construction) after every callback sequence, including the
empty one, i.e. before `Run` is ever called. -/
theorem accessors_pure_and_stable (K W : Type) (name ns : String)
    (kubeClient : K) (startWork stopWork : Option W)
    (hostId newUUID : String) (rlNewErr : Option String)
    (le : leaderElection K W)
    (h : New K W name ns kubeClient startWork stopWork (.ok hostId) newUUID
      rlNewErr = .ok le) :
    (∀ le2 : leaderElection K W,
      NameCall le2 = (le2, le2.name) ∧
      NamespaceCall le2 = (le2, le2.ns) ∧
      IDCall le2 = (le2, le2.lock.Identity) ∧
      IsLeaderCall le2 = (le2, le2.isLeader == 1)) ∧
    (∀ ops : List (FacadeOp W),
      Name (applyOps le ops) = name ∧
      Namespace (applyOps le ops) = ns ∧
      ID (applyOps le ops) = hostId ++ "_" ++ newUUID) := by
  refine ⟨fun le2 => ⟨rfl, rfl, rfl, rfl⟩, fun ops => ?_⟩
  cases rlNewErr with
  | some msg => exact absurd h (by simp [New])
  | none =>
    rw [New] at h
    injection h with h
    subst h
    obtain ⟨h1, h2, h3⟩ := applyOps_frame _ ops
    exact ⟨h1, h2, by rw [ID, ResourceLock.Identity, h3]⟩

/-- C10, instantiated: the accessors of a freshly built instance return
the constructor arguments, before any callback has fired. -/
theorem accessors_pure_and_stable_holds :
    Name leWitness = "n" ∧ Namespace leWitness = "ns" ∧
      ID leWitness = "host" ++ "_" ++ "u" :=
  (accessors_pure_and_stable Unit Unit "n" "ns" () none none "host" "u"
    none leWitness rfl).2 []

end LeaderElection
